import Mathlib

/-!
Shallow embedding of the MemeCoin Telegram bot (src/Bot), covering the
payment-gated action coordinator: the sqlite store (Utils/Database.py),
the payment verifier (Utils/BlockChain.py verify_payment), the payment
handlers (Handlers/Payment_Handlers.py) and the creation flow
(Handlers/Create_Handlers.py).

External effects are passed in explicitly: sqlite failures as Bool flags
(the Python code catches every exception and returns None/False), the
block-explorer HTTP response as an `Option ExplorerResponse` (none models
a network error / malformed JSON, i.e. the except-branch), and the chain
actuator results (`deploy_contract` returning an optional address,
`unlock_trading` / `submit_cmc` returning a Bool) as parameters.
-/

namespace MemeCoin

/-- A row of the `coins` table (Database.py, setup_database). -/
structure Coin where
  id : Nat
  user_id : Nat
  name : String
  symbol : String
  supply : Nat
  logo_path : String
  contract_address : String
  ref_id : String
  trading_enabled : Bool
  cmc_submitted : Bool
  created_at : Nat
deriving DecidableEq, Repr

/-- A row of the `transactions` table (Database.py, setup_database). -/
structure Txn where
  id : Nat
  user_id : Nat
  coin_id : Nat
  tx_type : String
  tx_hash : String
  amount : ℚ
  status : String
  created_at : Nat
deriving DecidableEq, Repr

/-- The sqlite database: the two tables plus their AUTOINCREMENT counters. -/
structure BotDB where
  coins : List Coin
  txns : List Txn
  coinNextId : Nat
  txNextId : Nat
deriving DecidableEq, Repr

/-- Pick the row `ORDER BY created_at DESC LIMIT 1` would return: an entry
with maximal `created_at`, the earliest row winning ties (stable order). -/
def pickLatest : List Coin → Option Coin
  | [] => none
  | c :: cs =>
    match pickLatest cs with
    | none => some c
    | some b => some (if b.created_at > c.created_at then b else c)

/-- Database.py `get_user_coin`: SELECT * FROM coins WHERE user_id = ?
ORDER BY created_at DESC LIMIT 1; any sqlite exception is caught and
yields None (`readFail` models the except-branch). -/
def get_user_coin (readFail : Bool) (db : BotDB) (uid : Nat) : Option Coin :=
  if readFail then none
  else pickLatest (db.coins.filter (fun c => c.user_id == uid))

/-- Database.py `add_new_coin`: INSERT INTO coins (...); returns the new
rowid, or None when sqlite raises (`insertFail`), leaving the table as is. -/
def add_new_coin (insertFail : Bool) (db : BotDB) (now uid : Nat)
    (name symbol : String) (supply : Nat)
    (logoPath contractAddress refId : String) (tradingEnabled : Bool) :
    Option Nat × BotDB :=
  if insertFail then (none, db)
  else
    let c : Coin :=
      { id := db.coinNextId, user_id := uid, name := name, symbol := symbol,
        supply := supply, logo_path := logoPath,
        contract_address := contractAddress, ref_id := refId,
        trading_enabled := tradingEnabled, cmc_submitted := false,
        created_at := now }
    (some db.coinNextId,
      { db with coins := db.coins ++ [c], coinNextId := db.coinNextId + 1 })

/-- Database.py `update_coin_status`: UPDATE coins SET ... WHERE
user_id = ? AND contract_address = ?; each optional argument updates its
column when present; returns False when sqlite raises (`updFail`). -/
def update_coin_status (updFail : Bool) (db : BotDB) (uid : Nat)
    (contractAddress : String) (tradingEnabled cmcSubmitted : Option Bool) :
    Bool × BotDB :=
  if updFail then (false, db)
  else
    (true,
      { db with coins := db.coins.map (fun c =>
          if c.user_id == uid && c.contract_address == contractAddress then
            { c with
              trading_enabled := tradingEnabled.getD c.trading_enabled,
              cmc_submitted := cmcSubmitted.getD c.cmc_submitted }
          else c) })

/-- Database.py `add_transaction`: INSERT INTO transactions (...); returns
the new rowid, or None when sqlite raises. No handler in the repository
ever calls this function. -/
def add_transaction (insertFail : Bool) (db : BotDB) (now uid coinId : Nat)
    (txType txHash : String) (amount : ℚ) (status : String) :
    Option Nat × BotDB :=
  if insertFail then (none, db)
  else
    let t : Txn :=
      { id := db.txNextId, user_id := uid, coin_id := coinId,
        tx_type := txType, tx_hash := txHash, amount := amount,
        status := status, created_at := now }
    (some db.txNextId,
      { db with txns := db.txns ++ [t], txNextId := db.txNextId + 1 })

/-! ## Payment verifier (Utils/BlockChain.py) -/

/-- One entry of the BSCScan `txlist` result, restricted to the fields
`verify_payment` reads: `timeStamp`, `to` and `value` (`int(tx["value"])`,
a Wei amount). -/
structure ExplorerTx where
  timeStamp : Int
  toAddr : String
  value : Int
deriving DecidableEq, Repr

/-- The decoded BSCScan JSON body: `status`, `message`, `result`. -/
structure ExplorerResponse where
  status : String
  message : String
  result : List ExplorerTx
deriving DecidableEq, Repr

/-- Python `str.lower()`, written out over the character list. -/
def lowerStr (s : String) : String := String.mk (s.data.map Char.toLower)

/-- `w3.to_wei(amount, 'ether')`: the exact integer amount * 10^18. The
result is an `int` in Python; both amounts the handlers pass (0.05 and
0.5 BNB) convert exactly, so the truncating division never loses value
on any input the program produces. -/
def toWei (amount : ℚ) : Int :=
  amount.num * 1000000000000000000 / (amount.den : Int)

/-- The per-transaction test inside `verify_payment`'s loop: skip entries
older than one hour, then accept when the recipient matches the wallet
case-insensitively and the value covers the expected Wei amount. -/
def txMatches (now : Int) (walletAddress : String) (expectedWei : Int)
    (tx : ExplorerTx) : Bool :=
  if tx.timeStamp < now - 3600 then false
  else lowerStr tx.toAddr == lowerStr walletAddress
    && decide (tx.value ≥ expectedWei)

/-- BlockChain.py `verify_payment`: fetch the wallet's transaction list
from BSCScan (`resp`; none models the except-branch: network error or
malformed JSON), return False unless `status == "1"`, then scan for a
recent, large-enough transfer to the wallet. The `reference` argument is
accepted but never consulted. -/
def verify_payment (resp : Option ExplorerResponse) (now : Int)
    (wallet_address : String) (expected_amount : ℚ) (reference : String) :
    Bool :=
  match resp with
  | none => false
  | some data =>
    if data.status != "1" then false
    else data.result.any (txMatches now wallet_address (toWei expected_amount))

/-! ## Payment handlers (Handlers/Payment_Handlers.py) -/

/-- UNLOCK_PRICE = 0.05 BNB. -/
def UNLOCK_PRICE : ℚ := mkRat 1 20

/-- CMC_PRICE = 0.5 BNB. -/
def CMC_PRICE : ℚ := mkRat 1 2

/-- The two payment types the callbacks distinguish. -/
inductive PayType
  | unlock
  | cmc
deriving DecidableEq, Repr

/-- `UNLOCK_PRICE if payment_type == "unlock" else CMC_PRICE`. -/
def payAmount : PayType → ℚ
  | .unlock => UNLOCK_PRICE
  | .cmc => CMC_PRICE

/-- The memo reference string built by the handlers:
`f"{payment_type.upper()}-{coin['ref_id']}"`. -/
def payRef (t : PayType) (refId : String) : String :=
  match t with
  | .unlock => "UNLOCK-" ++ refId
  | .cmc => "CMC-" ++ refId

/-- Outcome of `unlock_command` (/unlock). Its only store access is a
read, so it returns no new state. -/
inductive UnlockCmdResult
  | noCoin
  | alreadyEnabled
  | instructions (amount : ℚ) (ref : String)
deriving DecidableEq, Repr

/-- Payment_Handlers.py `unlock_command`: reject when the user has no
coin, report when trading is already enabled, otherwise reply with the
payment instructions. No write happens on any path. -/
def unlock_command (readFail : Bool) (db : BotDB) (uid : Nat) :
    UnlockCmdResult :=
  match get_user_coin readFail db uid with
  | none => .noCoin
  | some coin =>
    if coin.trading_enabled then .alreadyEnabled
    else .instructions UNLOCK_PRICE (payRef .unlock coin.ref_id)

/-- Outcome of `cmc_command` (/cmc). Read-only like `unlock_command`. -/
inductive CmcCmdResult
  | noCoin
  | tradingRequired
  | alreadySubmitted
  | instructions (amount : ℚ) (ref : String)
deriving DecidableEq, Repr

/-- Payment_Handlers.py `cmc_command`: the TradingEnabled precondition
gate lives here — reject without a coin, reject when trading is not yet
enabled, report when already submitted, else reply with instructions. -/
def cmc_command (readFail : Bool) (db : BotDB) (uid : Nat) : CmcCmdResult :=
  match get_user_coin readFail db uid with
  | none => .noCoin
  | some coin =>
    if !coin.trading_enabled then .tradingRequired
    else if coin.cmc_submitted then .alreadySubmitted
    else .instructions CMC_PRICE (payRef .cmc coin.ref_id)

/-- Final message of `verify_payment_callback`. -/
inductive CbResult
  | invalidCoin
  | paymentFailed
  | unlocked
  | cmcSubmitted
  | processingError
deriving DecidableEq, Repr

/-- What one `verify_payment_callback` run did: its reply, the database
afterwards, and how often each chain actuator was invoked. -/
structure CbOutcome where
  result : CbResult
  db : BotDB
  unlockCalls : Nat
  cmcCalls : Nat
deriving DecidableEq, Repr

/-- Payment_Handlers.py `verify_payment_callback` (the verify_unlock /
verify_cmc button): look the coin up, reject on a missing coin or an
address mismatch, verify the payment on chain, and when verified invoke
the actuator (`unlock_trading` / `submit_cmc`, whose boolean result is
the `actOk` parameter) and update the coin row. The handler checks
neither `trading_enabled` nor `cmc_submitted`, and it neither reads nor
writes the `transactions` table. The return of `update_coin_status` is
discarded, so an update failure (`updFail`) still reports success. -/
def verify_payment_callback (readFail : Bool) (db : BotDB) (uid : Nat)
    (ptype : PayType) (contractAddress : String)
    (resp : Option ExplorerResponse) (now : Int) (paymentWallet : String)
    (actOk : Bool) (updFail : Bool) : CbOutcome :=
  match get_user_coin readFail db uid with
  | none => ⟨.invalidCoin, db, 0, 0⟩
  | some coin =>
    if coin.contract_address != contractAddress then ⟨.invalidCoin, db, 0, 0⟩
    else
      let verified := verify_payment resp now paymentWallet
        (payAmount ptype) (payRef ptype coin.ref_id)
      if !verified then ⟨.paymentFailed, db, 0, 0⟩
      else
        match ptype with
        | .unlock =>
          if actOk then
            let upd := update_coin_status updFail db uid contractAddress
              (some true) none
            ⟨.unlocked, upd.2, 1, 0⟩
          else ⟨.processingError, db, 1, 0⟩
        | .cmc =>
          if actOk then
            let upd := update_coin_status updFail db uid contractAddress
              none (some true)
            ⟨.cmcSubmitted, upd.2, 0, 1⟩
          else ⟨.processingError, db, 0, 1⟩

/-! ## Creation flow (Handlers/Create_Handlers.py) -/

/-- The per-user `user_data[user_id]` dict of the conversation: each key
is present only once the corresponding step has run. -/
structure Session where
  name : Option String
  symbol : Option String
  supply : Option Nat
  logo_path : Option String
deriving DecidableEq, Repr

/-- A fresh `user_data[user_id] = {}`. -/
def Session.empty : Session := ⟨none, none, none, none⟩

/-- Whole-bot state: the sqlite database plus the in-memory `user_data`
dict of Create_Handlers.py, modelled as a map from user id to session. -/
structure BotState where
  db : BotDB
  sessions : Nat → Option Session

/-- Look a user's session up (`user_data[user_id]`, None when absent). -/
def getSession (st : BotState) (uid : Nat) : Option Session :=
  st.sessions uid

/-- Store a user's session, replacing any previous one. -/
def setSession (st : BotState) (uid : Nat) (s : Session) : BotState :=
  { st with sessions := fun v => if v == uid then some s else st.sessions v }

/-- `del user_data[user_id]`. -/
def delSession (st : BotState) (uid : Nat) : BotState :=
  { st with sessions := fun v => if v == uid then none else st.sessions v }

/-- Outcome of `create_free` (/createfree). -/
inductive CreateFreeResult
  | alreadyExists
  | started
deriving DecidableEq, Repr

/-- Create_Handlers.py `create_free`: reject when `get_user_coin` returns
a coin (a failed read returns None and is therefore treated exactly like
the absence of a coin), otherwise open a fresh empty session. -/
def create_free (readFail : Bool) (st : BotState) (uid : Nat) :
    CreateFreeResult × BotState :=
  match get_user_coin readFail st.db uid with
  | some _ => (.alreadyExists, st)
  | none => (.started, setSession st uid Session.empty)

/-- Create_Handlers.py `coin_name`: store the name in the session. When
no session exists the Python assignment raises KeyError and the update is
lost (state unchanged). -/
def coin_name (st : BotState) (uid : Nat) (v : String) : BotState :=
  match getSession st uid with
  | none => st
  | some s => setSession st uid { s with name := some v }

/-- Create_Handlers.py `coin_symbol` (same KeyError convention). -/
def coin_symbol (st : BotState) (uid : Nat) (v : String) : BotState :=
  match getSession st uid with
  | none => st
  | some s => setSession st uid { s with symbol := some v }

/-- Create_Handlers.py `supply_button` / `custom_supply`. -/
def coin_supply (st : BotState) (uid : Nat) (v : Nat) : BotState :=
  match getSession st uid with
  | none => st
  | some s => setSession st uid { s with supply := some v }

/-- Create_Handlers.py `coin_logo`: record the saved logo path. -/
def coin_logo (st : BotState) (uid : Nat) (v : String) : BotState :=
  match getSession st uid with
  | none => st
  | some s => setSession st uid { s with logo_path := some v }

/-- Outcome of `confirm_creation` (the confirm_yes button). -/
inductive ConfirmResult
  | cancelled
  | sessionError
  | deployFailed
  | success (address refId : String)
deriving DecidableEq, Repr

/-- Create_Handlers.py `confirm_creation`, confirm_yes branch: read the
session (KeyError → error handler, no change, when any field is missing),
deploy the contract (`deployResult`, None on actuator failure), and on an
address persist the coin via `add_new_coin` — whose return value the
handler discards, so a failed insert (`insertFail`) still reports
success and still deletes the session. On deploy failure the caught
exception leaves both the store and the session untouched. The fresh
`ref_id` (8 random uppercase/digit characters) is the `refId` parameter;
no code path compares it against existing coins. -/
def confirm_creation (st : BotState) (uid now : Nat) (refId : String)
    (deployResult : Option String) (insertFail : Bool) :
    ConfirmResult × BotState :=
  match getSession st uid with
  | none => (.sessionError, st)
  | some s =>
    match s.name, s.symbol, s.supply, s.logo_path with
    | some nm, some sy, some su, some lp =>
      match deployResult with
      | none => (.deployFailed, st)
      | some addr =>
        let ins := add_new_coin insertFail st.db now uid nm sy su lp addr
          refId false
        (.success addr refId, delSession { st with db := ins.2 } uid)
    | _, _, _, _ => (.sessionError, st)

/-- Create_Handlers.py `confirm_creation`, confirm_no branch: only a
message; the session is not deleted. -/
def confirm_no (st : BotState) (uid : Nat) : ConfirmResult × BotState :=
  (.cancelled, st)

/-- Create_Handlers.py `cancel` (/cancel): drop the session. -/
def cancel_command (st : BotState) (uid : Nat) : BotState :=
  delSession st uid

/-! ## Whole-bot trace model

The bot processes one Telegram update at a time (python-telegram-bot's
default sequential update processing, left untouched by Bot.py), so a run
of the system is a sequence of handler executions. Each event carries the
environment of its handler: failure flags of the sqlite layer, the
explorer response and the actuator results. The handlers that only read
(`/mycoin`, `/shill`, `handle_ton_payment`, the copy callback, plain
messages) are covered by `readOnlyCmd`. -/

/-- One handler execution together with its environment. -/
inductive Ev
  | createFree (uid : Nat) (readFail : Bool)
  | setName (uid : Nat) (v : String)
  | setSymbol (uid : Nat) (v : String)
  | setSupply (uid : Nat) (v : Nat)
  | setLogo (uid : Nat) (v : String)
  | confirmYes (uid now : Nat) (refId : String)
      (deployResult : Option String) (insertFail : Bool)
  | confirmNo (uid : Nat)
  | cancelCmd (uid : Nat)
  | unlockCmd (uid : Nat) (readFail : Bool)
  | cmcCmd (uid : Nat) (readFail : Bool)
  | verifyCb (uid : Nat) (ptype : PayType) (contractAddress : String)
      (readFail : Bool) (resp : Option ExplorerResponse) (now : Int)
      (paymentWallet : String) (actOk updFail : Bool)
  | readOnlyCmd (uid : Nat)
deriving DecidableEq, Repr

/-- Effect of one event on the bot state. -/
def stepEv (st : BotState) : Ev → BotState
  | .createFree uid readFail => (create_free readFail st uid).2
  | .setName uid v => coin_name st uid v
  | .setSymbol uid v => coin_symbol st uid v
  | .setSupply uid v => coin_supply st uid v
  | .setLogo uid v => coin_logo st uid v
  | .confirmYes uid now refId deployResult insertFail =>
    (confirm_creation st uid now refId deployResult insertFail).2
  | .confirmNo uid => (confirm_no st uid).2
  | .cancelCmd uid => cancel_command st uid
  | .unlockCmd _ _ => st
  | .cmcCmd _ _ => st
  | .verifyCb uid ptype contractAddress readFail resp now paymentWallet
      actOk updFail =>
    { st with db := (verify_payment_callback readFail st.db uid ptype
        contractAddress resp now paymentWallet actOk updFail).db }
  | .readOnlyCmd _ => st

/-- Run a sequence of events. -/
def run (st : BotState) (evs : List Ev) : BotState :=
  evs.foldl stepEv st

/-- The bot's state right after `setup_database` on a fresh file: both
tables empty, both AUTOINCREMENT counters at 1, no sessions. -/
def initState : BotState := ⟨⟨[], [], 1, 1⟩, fun _ => none⟩

/-- Number of coin rows belonging to a user. -/
def countCoins (uid : Nat) (db : BotDB) : Nat :=
  db.coins.countP (fun c => c.user_id == uid)

/-- Events whose store reads succeed: a failed `get_user_coin` inside
`create_free` is the one read whose failure can bypass the
one-coin-per-user check. -/
def goodEv : Ev → Bool
  | .createFree _ readFail => !readFail
  | _ => true

/-- The per-owner uniqueness invariant: every user owns at most one coin
row, and a user with an open creation session owns none yet. -/
def InvState (st : BotState) : Prop :=
  (∀ u, countCoins u st.db ≤ 1) ∧
  (∀ u s, getSession st u = some s → countCoins u st.db = 0)

/-! ## Concrete fixtures used by witnesses and counterexamples -/

/-- A transfer of exactly 0.05 BNB (5 * 10^16 Wei) to the payment wallet,
timestamped at second 3600. -/
def payTxUnlock : ExplorerTx := ⟨3600, "0xPAY", 50000000000000000⟩

/-- A transfer of exactly 0.5 BNB (5 * 10^17 Wei) to the payment wallet. -/
def payTxCmc : ExplorerTx := ⟨3600, "0xPAY", 500000000000000000⟩

/-- A successful explorer response carrying the unlock-sized transfer. -/
def okRespUnlock : ExplorerResponse := ⟨"1", "OK", [payTxUnlock]⟩

/-- A successful explorer response carrying the cmc-sized transfer. -/
def okRespCmc : ExplorerResponse := ⟨"1", "OK", [payTxCmc]⟩

/-- User 7's deployed coin, trading still locked. -/
def coinLocked : Coin :=
  ⟨1, 7, "DogeX", "DOGX", 1000000, "logos/7_DOGX.png", "0xC1", "AAAAAAAA",
    false, false, 100⟩

/-- The same coin once trading has been enabled. -/
def coinEnabled : Coin := { coinLocked with trading_enabled := true }

/-- A store holding only user 7's locked coin. -/
def dbLocked : BotDB := ⟨[coinLocked], [], 2, 1⟩

/-- A store holding only user 7's trading-enabled coin. -/
def dbEnabled : BotDB := ⟨[coinEnabled], [], 2, 1⟩

/-- Bot state over `dbLocked` with no open sessions. -/
def stLocked : BotState := ⟨dbLocked, fun _ => none⟩

/-- First verified ConfirmUnlock press on the locked coin. -/
def cb1 : CbOutcome :=
  verify_payment_callback false dbLocked 7 .unlock "0xC1" (some okRespUnlock)
    3600 "0xPay" true false

/-- Second verified ConfirmUnlock press, on the state `cb1` left behind. -/
def cb2 : CbOutcome :=
  verify_payment_callback false cb1.db 7 .unlock "0xC1" (some okRespUnlock)
    3600 "0xPay" true false

/-- A verified ConfirmUnlock press on a coin whose trading is already
enabled. -/
def cbDup : CbOutcome :=
  verify_payment_callback false dbEnabled 7 .unlock "0xC1" (some okRespUnlock)
    3600 "0xPay" true false

/-- A verified ConfirmListing (verify_cmc) press on a coin whose trading
has never been enabled. -/
def cbCmcLocked : CbOutcome :=
  verify_payment_callback false dbLocked 7 .cmc "0xC1" (some okRespCmc)
    3600 "0xPay" true false

/-- Empty store, user 7 has a completed creation session. -/
def stSession7 : BotState :=
  ⟨⟨[], [], 1, 1⟩, fun v =>
    if v == 7 then some ⟨some "DogeX", some "DOGX", some 1000000, some "lp7"⟩
    else none⟩

/-- User 7's coin exists with reference code AAAAAAAA while user 8 has a
completed creation session. -/
def stCollide : BotState :=
  ⟨dbLocked, fun v =>
    if v == 8 then some ⟨some "Pepe", some "PEPE", some 5000, some "lp8"⟩
    else none⟩

/-- User 7 creates a coin, start to finish, with every store read
succeeding. -/
def traceCreate7 : List Ev :=
  [.createFree 7 false, .setName 7 "DogeX", .setSymbol 7 "DOGX",
   .setSupply 7 1000000, .setLogo 7 "lp7",
   .confirmYes 7 100 "AAAAAAAA" (some "0xC1") false]

/-- After user 7's coin exists, a /createfree whose store read fails is
treated as if the user had no coin, and a full second creation follows. -/
def traceDoubleCreate : List Ev :=
  traceCreate7 ++
  [.createFree 7 true, .setName 7 "DogeY", .setSymbol 7 "DOGY",
   .setSupply 7 5000, .setLogo 7 "lp7b",
   .confirmYes 7 200 "BBBBBBBB" (some "0xC2") false]

/-- User 7 creates a coin with reference code AAAAAAAA, then user 8 fills
a session; the reference code drawn for user 8 collides. -/
def traceCollidePrefix : List Ev :=
  traceCreate7 ++
  [.createFree 8 false, .setName 8 "Pepe", .setSymbol 8 "PEPE",
   .setSupply 8 5000, .setLogo 8 "lp8"]

/-- The colliding confirmation appended. -/
def traceCollide : List Ev :=
  traceCollidePrefix ++ [.confirmYes 8 200 "AAAAAAAA" (some "0xC2") false]

/-! ## Helper lemmas -/

theorem pickLatest_mem : ∀ {l : List Coin} {c : Coin},
    pickLatest l = some c → c ∈ l := by
  intro l
  induction l with
  | nil => intro c h; simp [pickLatest] at h
  | cons a as ih =>
    intro c h
    simp only [pickLatest] at h
    cases hp : pickLatest as with
    | none => rw [hp] at h; simp at h; simp [h]
    | some b =>
      rw [hp] at h
      simp only [Option.some.injEq] at h
      by_cases hgt : b.created_at > a.created_at
      · rw [if_pos hgt] at h
        exact List.mem_cons_of_mem _ (h ▸ ih hp)
      · rw [if_neg hgt] at h
        simp [h]

theorem pickLatest_none_iff {l : List Coin} : pickLatest l = none ↔ l = [] := by
  cases l with
  | nil => simp [pickLatest]
  | cons a as =>
    simp only [pickLatest]
    cases pickLatest as <;> simp

theorem pickLatest_le : ∀ {l : List Coin} {c : Coin},
    pickLatest l = some c → ∀ x ∈ l, x.created_at ≤ c.created_at := by
  intro l
  induction l with
  | nil => intro c h; simp [pickLatest] at h
  | cons a as ih =>
    intro c h x hx
    simp only [pickLatest] at h
    cases hp : pickLatest as with
    | none =>
      rw [hp] at h
      simp only [Option.some.injEq] at h
      rcases List.mem_cons.1 hx with rfl | hx'
      · exact h ▸ le_refl _
      · have hnil : as = [] := pickLatest_none_iff.1 hp
        subst hnil
        simp at hx'
    | some b =>
      rw [hp] at h
      simp only [Option.some.injEq] at h
      rcases List.mem_cons.1 hx with rfl | hx'
      · by_cases hgt : b.created_at > x.created_at
        · rw [if_pos hgt] at h; exact h ▸ le_of_lt hgt
        · rw [if_neg hgt] at h; exact h ▸ le_refl _
      · have hxb := ih hp x hx'
        by_cases hgt : b.created_at > a.created_at
        · rw [if_pos hgt] at h; exact h ▸ hxb
        · rw [if_neg hgt] at h
          exact h ▸ le_trans hxb (le_of_not_lt hgt)

theorem get_user_coin_none_iff (db : BotDB) (uid : Nat) :
    get_user_coin false db uid = none ↔ countCoins uid db = 0 := by
  simp only [get_user_coin, Bool.false_eq_true, if_false]
  rw [pickLatest_none_iff]
  simp [countCoins, List.countP_eq_zero, List.filter_eq_nil_iff]

theorem countCoins_update (updFail : Bool) (db : BotDB) (uid : Nat)
    (ca : String) (te cs : Option Bool) (u : Nat) :
    countCoins u (update_coin_status updFail db uid ca te cs).2
      = countCoins u db := by
  cases updFail with
  | true => rfl
  | false =>
    simp only [update_coin_status, countCoins, Bool.false_eq_true, if_false]
    rw [List.countP_map]
    apply List.countP_congr
    intro c _
    by_cases h : (c.user_id == uid && c.contract_address == ca) = true
    · rw [Function.comp_apply, if_pos h]
    · rw [Function.comp_apply, if_neg h]

theorem countCoins_callback (readFail : Bool) (db : BotDB) (uid : Nat)
    (ptype : PayType) (ca : String) (resp : Option ExplorerResponse)
    (now : Int) (pw : String) (actOk updFail : Bool) (u : Nat) :
    countCoins u (verify_payment_callback readFail db uid ptype ca resp now
      pw actOk updFail).db = countCoins u db := by
  unfold verify_payment_callback
  cases get_user_coin readFail db uid with
  | none => rfl
  | some coin =>
    by_cases h1 : (coin.contract_address != ca) = true
    · simp only [h1, if_true]
    · rw [Bool.not_eq_true] at h1
      simp only [h1, Bool.false_eq_true, if_false]
      by_cases h2 : (!verify_payment resp now pw (payAmount ptype)
          (payRef ptype coin.ref_id)) = true
      · simp only [h2, if_true]
      · rw [Bool.not_eq_true] at h2
        simp only [h2, Bool.false_eq_true, if_false]
        cases ptype with
        | unlock =>
          cases actOk with
          | true => exact countCoins_update updFail db uid ca (some true) none u
          | false => rfl
        | cmc =>
          cases actOk with
          | true => exact countCoins_update updFail db uid ca none (some true) u
          | false => rfl

theorem update_coin_status_txns (updFail : Bool) (db : BotDB) (uid : Nat)
    (ca : String) (te cs : Option Bool) :
    (update_coin_status updFail db uid ca te cs).2.txns = db.txns := by
  cases updFail <;> rfl

theorem inv_setSession (st : BotState) (uid : Nat) (s1 : Session)
    (h : InvState st) (h0 : countCoins uid st.db = 0) :
    InvState (setSession st uid s1) := by
  refine ⟨h.1, ?_⟩
  intro v s hv
  simp only [getSession, setSession] at hv
  by_cases hvu : (v == uid) = true
  · rw [beq_iff_eq] at hvu
    exact hvu ▸ h0
  · rw [if_neg hvu] at hv
    exact h.2 v s hv

theorem inv_setField (st : BotState) (uid : Nat) (s0 s1 : Session)
    (hs : getSession st uid = some s0) (h : InvState st) :
    InvState (setSession st uid s1) :=
  inv_setSession st uid s1 h (h.2 uid s0 hs)

theorem inv_delSession (st : BotState) (uid : Nat) (h : InvState st) :
    InvState (delSession st uid) := by
  refine ⟨h.1, ?_⟩
  intro v s hv
  simp only [getSession, delSession] at hv
  by_cases hvu : (v == uid) = true
  · rw [if_pos hvu] at hv; cases hv
  · rw [if_neg hvu] at hv
    exact h.2 v s hv

theorem inv_db_count_eq (st : BotState) (db' : BotDB)
    (hcnt : ∀ u, countCoins u db' = countCoins u st.db) (h : InvState st) :
    InvState ⟨db', st.sessions⟩ := by
  refine ⟨fun u => (hcnt u) ▸ h.1 u, ?_⟩
  intro v s hv
  exact (hcnt v) ▸ h.2 v s hv

theorem countCoins_append_one (db : BotDB) (c : Coin) (extra : Nat)
    (u : Nat) :
    countCoins u { db with coins := db.coins ++ [c], coinNextId := extra }
      = countCoins u db + (if c.user_id == u then 1 else 0) := by
  simp only [countCoins, List.countP_append, List.countP_cons,
    List.countP_nil]
  by_cases hc : (c.user_id == u) = true <;> simp [hc]

theorem stepEv_inv (st : BotState) (e : Ev) (hg : goodEv e = true)
    (h : InvState st) : InvState (stepEv st e) := by
  cases e with
  | createFree uid readFail =>
    have hrf : readFail = false := by
      simpa [goodEv] using hg
    subst hrf
    simp only [stepEv, create_free]
    cases hguc : get_user_coin false st.db uid with
    | some c => exact h
    | none =>
      exact inv_setSession st uid Session.empty h
        ((get_user_coin_none_iff st.db uid).1 hguc)
  | setName uid v =>
    simp only [stepEv, coin_name]
    cases hs : getSession st uid with
    | none => exact h
    | some s => exact inv_setField st uid s _ hs h
  | setSymbol uid v =>
    simp only [stepEv, coin_symbol]
    cases hs : getSession st uid with
    | none => exact h
    | some s => exact inv_setField st uid s _ hs h
  | setSupply uid v =>
    simp only [stepEv, coin_supply]
    cases hs : getSession st uid with
    | none => exact h
    | some s => exact inv_setField st uid s _ hs h
  | setLogo uid v =>
    simp only [stepEv, coin_logo]
    cases hs : getSession st uid with
    | none => exact h
    | some s => exact inv_setField st uid s _ hs h
  | confirmYes uid now refId deployResult insertFail =>
    simp only [stepEv, confirm_creation]
    cases hs : getSession st uid with
    | none => exact h
    | some s =>
      obtain ⟨n, sy, su, lp⟩ := s
      cases n with
      | none => exact h
      | some nm =>
      cases sy with
      | none => exact h
      | some syv =>
      cases su with
      | none => exact h
      | some suv =>
      cases lp with
      | none => exact h
      | some lpv =>
      cases deployResult with
      | none => exact h
      | some addr =>
        cases insertFail with
        | true => exact inv_delSession st uid h
        | false =>
          have h0 : countCoins uid st.db = 0 := h.2 uid _ hs
          have hcnt : ∀ u, countCoins u (add_new_coin false st.db now uid nm
              syv suv lpv addr refId false).2
              = countCoins u st.db + (if uid == u then 1 else 0) := by
            intro u
            simp only [add_new_coin, Bool.false_eq_true, if_false]
            exact countCoins_append_one st.db _ _ u
          refine ⟨?_, ?_⟩
          · intro u
            show countCoins u (add_new_coin false st.db now uid nm syv suv
              lpv addr refId false).2 ≤ 1
            rw [hcnt u]
            by_cases hu : (uid == u) = true
            · rw [beq_iff_eq] at hu
              subst hu
              rw [if_pos (beq_self_eq_true uid)]
              omega
            · rw [Bool.not_eq_true] at hu
              rw [hu, if_neg (by simp)]
              have h1 := h.1 u
              omega
          · intro v s hv
            have hv' : st.sessions v = some s ∧ (v == uid) = false := by
              by_cases hvu : (v == uid) = true
              · exfalso
                have : getSession (delSession { st with
                    db := (add_new_coin false st.db now uid nm syv suv lpv
                      addr refId false).2 } uid) v = none := by
                  simp only [getSession, delSession, hvu, if_true]
                rw [this] at hv
                cases hv
              · rw [Bool.not_eq_true] at hvu
                refine ⟨?_, hvu⟩
                have : getSession (delSession { st with
                    db := (add_new_coin false st.db now uid nm syv suv lpv
                      addr refId false).2 } uid) v = st.sessions v := by
                  simp only [getSession, delSession, hvu,
                    Bool.false_eq_true, if_false]
                rw [this] at hv
                exact hv
            have h0v : countCoins v st.db = 0 := h.2 v s hv'.1
            show countCoins v (add_new_coin false st.db now uid nm syv suv
              lpv addr refId false).2 = 0
            rw [hcnt v]
            have huv : (uid == v) = false := by
              rw [beq_eq_false_iff_ne]
              intro heq
              rw [beq_eq_false_iff_ne] at hv'
              exact hv'.2 heq.symm
            rw [huv, if_neg (by simp)]
            omega
  | confirmNo uid => exact h
  | cancelCmd uid => exact inv_delSession st uid h
  | unlockCmd uid readFail => exact h
  | cmcCmd uid readFail => exact h
  | verifyCb uid ptype ca readFail resp now pw actOk updFail =>
    exact inv_db_count_eq st _ (fun u => countCoins_callback readFail st.db
      uid ptype ca resp now pw actOk updFail u) h
  | readOnlyCmd uid => exact h

theorem initState_inv : InvState initState := by
  constructor
  · intro u
    exact Nat.zero_le 1
  · intro u s hv
    cases hv

theorem run_inv (evs : List Ev) : ∀ st, (∀ e ∈ evs, goodEv e = true) →
    InvState st → InvState (run st evs) := by
  induction evs with
  | nil => intro st _ h; exact h
  | cons e es ih =>
    intro st hg h
    exact ih (stepEv st e) (fun x hx => hg x (List.mem_cons_of_mem e hx))
      (stepEv_inv st e (hg e (List.mem_cons_self e es)) h)

theorem txMatches_eq_true_iff (now : Int) (w : String) (e : Int)
    (tx : ExplorerTx) :
    txMatches now w e tx = true ↔
      tx.timeStamp ≥ now - 3600 ∧ lowerStr tx.toAddr = lowerStr w ∧
        tx.value ≥ e := by
  unfold txMatches
  by_cases h : tx.timeStamp < now - 3600
  · rw [if_pos h]
    simp only [Bool.false_eq_true, false_iff]
    intro hcon
    exact absurd hcon.1 (not_le.mpr h)
  · rw [if_neg h]
    rw [not_lt] at h
    simp only [Bool.and_eq_true, beq_iff_eq, decide_eq_true_eq]
    constructor
    · intro hp
      exact ⟨h, hp.1, hp.2⟩
    · intro hp
      exact ⟨hp.2.1, hp.2.2⟩

theorem verified_unlock_run (readFail : Bool) (db : BotDB) (uid : Nat)
    (addr : String) (resp : Option ExplorerResponse) (now : Int)
    (pw : String) (actOk updFail : Bool) (coin : Coin)
    (hc : get_user_coin readFail db uid = some coin)
    (haddr : coin.contract_address = addr)
    (hv : verify_payment resp now pw (payAmount .unlock)
      (payRef .unlock coin.ref_id) = true) :
    (verify_payment_callback readFail db uid .unlock addr resp now pw actOk
      updFail).unlockCalls = 1 ∧
    (verify_payment_callback readFail db uid .unlock addr resp now pw actOk
      updFail).db.txns = db.txns := by
  unfold verify_payment_callback
  rw [hc]
  simp only [haddr, bne_self_eq_false, Bool.false_eq_true, if_false, hv,
    Bool.not_true]
  cases actOk with
  | true =>
    exact ⟨rfl, update_coin_status_txns updFail db uid addr (some true) none⟩
  | false => exact ⟨rfl, rfl⟩

theorem verified_cmc_run (readFail : Bool) (db : BotDB) (uid : Nat)
    (addr : String) (resp : Option ExplorerResponse) (now : Int)
    (pw : String) (actOk updFail : Bool) (coin : Coin)
    (hc : get_user_coin readFail db uid = some coin)
    (haddr : coin.contract_address = addr)
    (hv : verify_payment resp now pw (payAmount .cmc)
      (payRef .cmc coin.ref_id) = true) :
    (verify_payment_callback readFail db uid .cmc addr resp now pw actOk
      updFail).cmcCalls = 1 ∧
    (verify_payment_callback readFail db uid .cmc addr resp now pw actOk
      updFail).db.txns = db.txns := by
  unfold verify_payment_callback
  rw [hc]
  simp only [haddr, bne_self_eq_false, Bool.false_eq_true, if_false, hv,
    Bool.not_true]
  cases actOk with
  | true =>
    exact ⟨rfl, update_coin_status_txns updFail db uid addr none (some true)⟩
  | false => exact ⟨rfl, rfl⟩

/-! ## Claim theorems -/

/-- C1, counterexample: two verified ConfirmUnlock presses on the same
locked coin each invoke the chain actuator (two invocations in total, not
one) and leave the transactions ledger empty — no Action Record is ever
written or consulted, contradicting the claimed at-most-once actuation. -/
theorem confirm_unlock_double_actuation_cex :
    cb1.result = .unlocked ∧ cb2.result = .unlocked ∧
    cb1.unlockCalls + cb2.unlockCalls = 2 ∧ cb2.db.txns = [] := by decide

/-- C1, amended: `verify_payment_callback` consults no ledger at all —
every call that passes payment verification invokes the actuator exactly
once (so a sequence of n verified calls performs n invocations), and the
`transactions` table is never read or written (it is preserved verbatim). -/
theorem confirm_unlock_no_ledger (readFail : Bool) (db : BotDB) (uid : Nat)
    (addr : String) (resp : Option ExplorerResponse) (now : Int)
    (pw : String) (actOk updFail : Bool) (coin : Coin)
    (hc : get_user_coin readFail db uid = some coin)
    (haddr : coin.contract_address = addr)
    (hv : verify_payment resp now pw (payAmount .unlock)
      (payRef .unlock coin.ref_id) = true) :
    (verify_payment_callback readFail db uid .unlock addr resp now pw actOk
      updFail).unlockCalls = 1 ∧
    (verify_payment_callback readFail db uid .unlock addr resp now pw actOk
      updFail).db.txns = db.txns :=
  verified_unlock_run readFail db uid addr resp now pw actOk updFail coin
    hc haddr hv

/-- C1, witness: the first verified press on the concrete locked coin. -/
theorem confirm_unlock_no_ledger_witness :
    cb1.unlockCalls = 1 ∧ cb1.db.txns = dbLocked.txns :=
  confirm_unlock_no_ledger false dbLocked 7 "0xC1" (some okRespUnlock) 3600
    "0xPay" true false coinLocked (by decide) rfl (by decide)

/-- C2, counterexample: a verified ConfirmUnlock press on a coin whose
trading is already enabled does not return an AlreadyUnlocked no-op — it
verifies the payment again and invokes the actuator again. -/
theorem confirm_unlock_not_idempotent_cex :
    coinEnabled.trading_enabled = true ∧ cbDup.unlockCalls = 1 ∧
    cbDup.result = .unlocked := by decide

/-- C2, amended: only the /unlock command checks `trading_enabled` and
replies already-enabled (with no writes and no actuation, since the
handler only reads); `verify_payment_callback` performs no such check, so
a verified press on an already-enabled coin still invokes the actuator. -/
theorem already_unlocked_gate_only_command (readFail : Bool) (db : BotDB)
    (uid : Nat) (addr : String) (resp : Option ExplorerResponse)
    (now : Int) (pw : String) (actOk updFail : Bool) (coin : Coin)
    (hc : get_user_coin readFail db uid = some coin)
    (hen : coin.trading_enabled = true) :
    unlock_command readFail db uid = .alreadyEnabled ∧
    (coin.contract_address = addr →
      verify_payment resp now pw (payAmount .unlock)
        (payRef .unlock coin.ref_id) = true →
      (verify_payment_callback readFail db uid .unlock addr resp now pw
        actOk updFail).unlockCalls = 1) := by
  constructor
  · unfold unlock_command
    rw [hc]
    simp [hen]
  · intro haddr hv
    exact (verified_unlock_run readFail db uid addr resp now pw actOk
      updFail coin hc haddr hv).1

/-- C2, witness: the concrete already-enabled coin. -/
theorem already_unlocked_gate_witness :
    unlock_command false dbEnabled 7 = .alreadyEnabled ∧
    cbDup.unlockCalls = 1 :=
  ⟨(already_unlocked_gate_only_command false dbEnabled 7 "0xC1"
      (some okRespUnlock) 3600 "0xPay" true false coinEnabled (by decide)
      rfl).1,
   (already_unlocked_gate_only_command false dbEnabled 7 "0xC1"
      (some okRespUnlock) 3600 "0xPay" true false coinEnabled (by decide)
      rfl).2 rfl (by decide)⟩

/-- C3, counterexample: a verified verify_cmc press on a coin whose
trading was never enabled performs the listing submission anyway: it
reports success, invokes the actuator once, and sets `cmc_submitted`
while the coin is still TradingLocked — not a precondition error with no
state change. -/
theorem confirm_listing_no_gate_cex :
    coinLocked.trading_enabled = false ∧
    cbCmcLocked.result = .cmcSubmitted ∧ cbCmcLocked.cmcCalls = 1 ∧
    cbCmcLocked.db.coins = [{ coinLocked with cmc_submitted := true }] := by
  decide

/-- C3, amended: the TradingEnabled precondition exists only in the /cmc
command, which rejects with a trading-required message and performs no
write; `verify_payment_callback` applies no lifecycle gate, so a verified
verify_cmc press on a trading-locked coin still actuates the submission. -/
theorem confirm_listing_gate_only_command (readFail : Bool) (db : BotDB)
    (uid : Nat) (addr : String) (resp : Option ExplorerResponse)
    (now : Int) (pw : String) (actOk updFail : Bool) (coin : Coin)
    (hc : get_user_coin readFail db uid = some coin)
    (hlock : coin.trading_enabled = false) :
    cmc_command readFail db uid = .tradingRequired ∧
    (coin.contract_address = addr →
      verify_payment resp now pw (payAmount .cmc)
        (payRef .cmc coin.ref_id) = true →
      (verify_payment_callback readFail db uid .cmc addr resp now pw
        actOk updFail).cmcCalls = 1) := by
  constructor
  · unfold cmc_command
    rw [hc]
    simp [hlock]
  · intro haddr hv
    exact (verified_cmc_run readFail db uid addr resp now pw actOk updFail
      coin hc haddr hv).1

/-- C3, witness: the concrete trading-locked coin. -/
theorem confirm_listing_gate_witness :
    cmc_command false dbLocked 7 = .tradingRequired ∧
    cbCmcLocked.cmcCalls = 1 :=
  ⟨(confirm_listing_gate_only_command false dbLocked 7 "0xC1"
      (some okRespCmc) 3600 "0xPay" true false coinLocked (by decide)
      rfl).1,
   (confirm_listing_gate_only_command false dbLocked 7 "0xC1"
      (some okRespCmc) 3600 "0xPay" true false coinLocked (by decide)
      rfl).2 rfl (by decide)⟩

/-- C4, counterexample: after user 7's coin exists, a /createfree whose
store read fails is answered with `started` (not AlreadyExists), and the
completed second flow leaves two coins for owner 7 in the store. -/
theorem duplicate_asset_after_read_failure_cex :
    countCoins 7 (run initState traceCreate7).db = 1 ∧
    (create_free true (run initState traceCreate7) 7).1 = .started ∧
    countCoins 7 (run initState traceDoubleCreate).db = 2 := by decide

/-- C4, amended: `create_free` rejects with AlreadyExists (and changes
nothing) whenever the store read succeeds and the owner already has a
coin, and along every trace whose `create_free` store reads succeed each
owner has at most one coin; a failed read, however, is treated as the
absence of a coin, which is what permits the duplicate of the
counterexample. -/
theorem asset_unique_when_reads_succeed :
    (∀ st uid, countCoins uid st.db ≠ 0 →
      (create_free false st uid).1 = .alreadyExists ∧
      (create_free false st uid).2 = st) ∧
    (∀ evs : List Ev, (∀ e ∈ evs, goodEv e = true) →
      ∀ uid, countCoins uid (run initState evs).db ≤ 1) := by
  constructor
  · intro st uid h0
    unfold create_free
    cases hguc : get_user_coin false st.db uid with
    | none => exact absurd ((get_user_coin_none_iff st.db uid).1 hguc) h0
    | some c => exact ⟨rfl, rfl⟩
  · intro evs hg uid
    exact (run_inv evs initState hg initState_inv).1 uid

/-- C4, witness: the store with user 7's coin rejects a fresh
/createfree, and the all-reads-succeed creation trace respects the
one-coin bound. -/
theorem asset_unique_witness :
    countCoins 7 stLocked.db ≠ 0 ∧
    (create_free false stLocked 7).1 = .alreadyExists ∧
    countCoins 7 (run initState traceCreate7).db ≤ 1 :=
  ⟨by decide, (asset_unique_when_reads_succeed.1 stLocked 7 (by decide)).1,
   asset_unique_when_reads_succeed.2 traceCreate7 (by decide) 7⟩

/-- C5: `verify_payment` fails closed — a fetch that errors out (the
except-branch) or an explorer body whose status is not "1" always yields
False, never True. -/
theorem verify_fails_closed (resp : Option ExplorerResponse) (now : Int)
    (wallet : String) (amount : ℚ) (reference : String)
    (h : resp = none ∨ ∃ d, resp = some d ∧ d.status ≠ "1") :
    verify_payment resp now wallet amount reference = false := by
  rcases h with rfl | ⟨d, rfl, hs⟩
  · rfl
  · show (if d.status != "1" then false
      else d.result.any (txMatches now wallet (toWei amount))) = false
    rw [if_pos (bne_iff_ne.mpr hs)]

/-- C5, witness: a network error and a status-"0" body both verify to
False. -/
theorem verify_fails_closed_witness :
    verify_payment none 3600 "0xPay" UNLOCK_PRICE "r" = false ∧
    verify_payment (some ⟨"0", "NOTOK", [payTxUnlock]⟩) 3600 "0xPay"
      UNLOCK_PRICE "r" = false :=
  ⟨verify_fails_closed none 3600 "0xPay" UNLOCK_PRICE "r" (Or.inl rfl),
   verify_fails_closed (some ⟨"0", "NOTOK", [payTxUnlock]⟩) 3600 "0xPay"
     UNLOCK_PRICE "r" (Or.inr ⟨⟨"0", "NOTOK", [payTxUnlock]⟩, rfl,
       by decide⟩)⟩

/-- C6: on a successfully fetched body (status "1"), `verify_payment`
returns True exactly when some listed transaction is at most one hour old,
is addressed to the wallet up to letter case, and carries at least the
expected amount converted to Wei. -/
theorem verify_payment_iff (d : ExplorerResponse) (now : Int)
    (wallet : String) (amount : ℚ) (reference : String)
    (hs : d.status = "1") :
    verify_payment (some d) now wallet amount reference = true ↔
      ∃ tx ∈ d.result, tx.timeStamp ≥ now - 3600 ∧
        lowerStr tx.toAddr = lowerStr wallet ∧ tx.value ≥ toWei amount := by
  show (if d.status != "1" then false
    else d.result.any (txMatches now wallet (toWei amount))) = true ↔ _
  rw [if_neg (by simp [hs])]
  rw [List.any_eq_true]
  constructor
  · rintro ⟨tx, htx, hmatch⟩
    exact ⟨tx, htx,
      (txMatches_eq_true_iff now wallet (toWei amount) tx).1 hmatch⟩
  · rintro ⟨tx, htx, hprop⟩
    exact ⟨tx, htx,
      (txMatches_eq_true_iff now wallet (toWei amount) tx).2 hprop⟩

/-- C6, witness: the concrete 0.05 BNB transfer makes the verifier accept. -/
theorem verify_payment_iff_witness :
    verify_payment (some okRespUnlock) 3600 "0xPay" UNLOCK_PRICE
      "UNLOCK-AAAAAAAA" = true :=
  (verify_payment_iff okRespUnlock 3600 "0xPay" UNLOCK_PRICE
    "UNLOCK-AAAAAAAA" rfl).2
    ⟨payTxUnlock, by decide, by decide, by decide, by decide⟩

/-- C7: the verifier's result does not depend on the reference argument —
the memo is never compared against the transaction payload, so any two
references give the same boolean on identical remaining inputs. -/
theorem verify_reference_independent (resp : Option ExplorerResponse)
    (now : Int) (wallet : String) (amount : ℚ) (ref1 ref2 : String) :
    verify_payment resp now wallet amount ref1
      = verify_payment resp now wallet amount ref2 := rfl

/-- C8: when `deploy_contract` yields no address, `confirm_creation`
reports no success, persists nothing (the whole bot state is unchanged),
and a subsequent /createfree for an owner who had no coin still starts
fresh — the failed creation is safely retryable. -/
theorem deploy_failure_preserves_state (st : BotState) (uid now : Nat)
    (refId : String) (insertFail : Bool) :
    (∀ a r, (confirm_creation st uid now refId none insertFail).1
      ≠ .success a r) ∧
    (confirm_creation st uid now refId none insertFail).2 = st ∧
    (countCoins uid st.db = 0 →
      (create_free false
        (confirm_creation st uid now refId none insertFail).2 uid).1
        = .started) := by
  have key : (confirm_creation st uid now refId none insertFail).2 = st ∧
      ((confirm_creation st uid now refId none insertFail).1
          = .sessionError ∨
        (confirm_creation st uid now refId none insertFail).1
          = .deployFailed) := by
    unfold confirm_creation
    cases hs : getSession st uid with
    | none => exact ⟨rfl, Or.inl rfl⟩
    | some s =>
      obtain ⟨n, sy, su, lp⟩ := s
      cases n <;> cases sy <;> cases su <;> cases lp <;>
        first
          | exact ⟨rfl, Or.inl rfl⟩
          | exact ⟨rfl, Or.inr rfl⟩
  refine ⟨?_, key.1, ?_⟩
  · intro a r hsuc
    rcases key.2 with h' | h' <;> rw [h'] at hsuc <;> cases hsuc
  · intro h0
    rw [key.1]
    unfold create_free
    cases hguc : get_user_coin false st.db uid with
    | some c =>
      have hnone := (get_user_coin_none_iff st.db uid).2 h0
      rw [hguc] at hnone
      cases hnone
    | none => rfl

/-- C8, witness: a concrete complete session whose deploy fails. -/
theorem deploy_failure_witness :
    (confirm_creation stSession7 7 100 "AAAAAAAA" none false).2
      = stSession7 ∧
    (create_free false
      (confirm_creation stSession7 7 100 "AAAAAAAA" none false).2 7).1
      = .started :=
  ⟨(deploy_failure_preserves_state stSession7 7 100 "AAAAAAAA" false).2.1,
   (deploy_failure_preserves_state stSession7 7 100 "AAAAAAAA" false).2.2
     (by decide)⟩

/-- C9, counterexample: user 8's creation draws the reference code user
7's coin already carries, yet the confirmation succeeds and the store ends
up with two coins sharing ref_id AAAAAAAA — the collision is not treated
as a fatal creation error. -/
theorem ref_collision_accepted_cex :
    (confirm_creation (run initState traceCollidePrefix) 8 200 "AAAAAAAA"
      (some "0xC2") false).1 = .success "0xC2" "AAAAAAAA" ∧
    ((run initState traceCollide).db.coins.countP
      (fun c => c.ref_id == "AAAAAAAA")) = 2 := by decide

/-- C9, amended: reference codes are drawn at random and no code path
compares the fresh code against existing coins — even when some stored
coin already carries the same ref_id, `confirm_creation` succeeds and
appends the colliding row, so global uniqueness is not enforced and a
collision is not fatal. -/
theorem ref_collision_not_fatal (st : BotState) (uid now : Nat)
    (refId addr nm sy : String) (su : Nat) (lp : String)
    (hs : getSession st uid = some ⟨some nm, some sy, some su, some lp⟩)
    (c : Coin) (hc : c ∈ st.db.coins) (href : c.ref_id = refId) :
    (confirm_creation st uid now refId (some addr) false).1
      = .success addr refId ∧
    (confirm_creation st uid now refId (some addr) false).2.db.coins
      = st.db.coins ++ [⟨st.db.coinNextId, uid, nm, sy, su, lp, addr,
          refId, false, false, now⟩] := by
  unfold confirm_creation
  rw [hs]
  exact ⟨rfl, rfl⟩

/-- C9, witness: the concrete colliding confirmation for user 8. -/
theorem ref_collision_witness :
    coinLocked ∈ stCollide.db.coins ∧ coinLocked.ref_id = "AAAAAAAA" ∧
    (confirm_creation stCollide 8 200 "AAAAAAAA" (some "0xC2") false).1
      = .success "0xC2" "AAAAAAAA" :=
  ⟨by decide, by decide,
   (ref_collision_not_fatal stCollide 8 200 "AAAAAAAA" "0xC2" "Pepe"
     "PEPE" 5000 "lp8" rfl coinLocked (by decide) rfl).1⟩

/-- C10: `get_user_coin` returns None exactly when the read fails or the
user owns no coin, and any returned row belongs to the user and carries
the greatest created_at among the user's rows (the ORDER BY created_at
DESC LIMIT 1 row). -/
theorem get_user_coin_correct (db : BotDB) (uid : Nat) :
    get_user_coin true db uid = none ∧
    (get_user_coin false db uid = none ↔
      ∀ c ∈ db.coins, c.user_id ≠ uid) ∧
    ∀ c, get_user_coin false db uid = some c →
      c ∈ db.coins ∧ c.user_id = uid ∧
        ∀ x ∈ db.coins, x.user_id = uid →
          x.created_at ≤ c.created_at := by
  refine ⟨rfl, ?_, ?_⟩
  · rw [get_user_coin_none_iff]
    simp [countCoins, List.countP_eq_zero]
  · intro c hc
    have hc' : pickLatest (db.coins.filter (fun x => x.user_id == uid))
        = some c := by
      simpa [get_user_coin] using hc
    have hmem := pickLatest_mem hc'
    rw [List.mem_filter] at hmem
    refine ⟨hmem.1, by simpa using hmem.2, ?_⟩
    intro x hx hxuid
    exact pickLatest_le hc' x (List.mem_filter.2 ⟨hx, by simp [hxuid]⟩)

/-- C10, witness: the single-coin store returns user 7's coin, which is
maximal. -/
theorem get_user_coin_correct_witness :
    coinLocked ∈ dbLocked.coins ∧ coinLocked.user_id = 7 ∧
      ∀ x ∈ dbLocked.coins, x.user_id = 7 →
        x.created_at ≤ coinLocked.created_at :=
  (get_user_coin_correct dbLocked 7).2.2 coinLocked (by decide)

end MemeCoin
